import Mathlib

/-!
Verification development for the LLM question-answering glue code
(src/LLM_QA_CLI.py and src/app.py).

The Python code is shallowly embedded: JSON-like Python values are the
inductive type Json, fallible Python operations (attribute errors, key
errors, type errors) return Except Unit, and the network is modelled by
an explicit ProviderOutcome parameter together with a trace of the
requests the code issues.  All definitions are executable and
structurally recursive so concrete runs evaluate by rfl / decide.
-/

/-- JSON-like values as produced by json parsing in Python (None, bool,
int, str, list, dict).  Numbers are modelled as integers: no claim under
study depends on non-integral provider values, and the request body's
float field (temperature) is modelled separately in Payload. -/
inductive Json where
  | null : Json
  | bool : Bool → Json
  | num : Int → Json
  | str : String → Json
  | arr : List Json → Json
  | obj : List (String × Json) → Json

/-- Python truthiness of a JSON-like value: None, False, 0, "", [] and
\x7b\x7d are falsy, everything else is truthy. -/
def jsonTruthy : Json → Bool
  | Json.null => false
  | Json.bool b => b
  | Json.num n => !(n == 0)
  | Json.str s => !(s == "")
  | Json.arr l => !l.isEmpty
  | Json.obj l => !l.isEmpty

/-- First value bound to a key in a dict (Python dicts have unique keys;
the association list is read left to right). -/
def findVal (kvs : List (String × Json)) (k : String) : Option Json :=
  (kvs.find? (fun kv => kv.1 == k)).map (fun kv => kv.2)

/-- Dict lookup with a default, as in Python dict.get(k, d). -/
def findValD (kvs : List (String × Json)) (k : String) (d : Json) : Json :=
  (findVal kvs k).getD d

/-- Python x or y for JSON-like values: x if truthy, else y. -/
def pyOr (a b : Json) : Json := if jsonTruthy a then a else b

/-- Python repr of a str: quoted with a single quote, switching to a
double quote when the string contains a single quote but no double
quote; backslashes, quotes, tab, newline and carriage return are
escaped.  (Escape codes for other control characters are outside the
model.) -/
def pyReprString (s : String) : String :=
  let sq : Char := Char.ofNat 39
  let dq : Char := Char.ofNat 34
  let bs : Char := Char.ofNat 92
  let q : Char := if s.toList.contains sq && !(s.toList.contains dq) then dq else sq
  let esc : Char → List Char := fun c =>
    if c == bs then [bs, bs]
    else if c == q then [bs, c]
    else if c == Char.ofNat 9 then [bs, Char.ofNat 116]
    else if c == Char.ofNat 10 then [bs, Char.ofNat 110]
    else if c == Char.ofNat 13 then [bs, Char.ofNat 114]
    else [c]
  String.mk ([q] ++ s.toList.flatMap esc ++ [q])

mutual

/-- Python repr of a JSON-like value (used by str on non-str values). -/
def pyRepr : Json → String
  | Json.null => "None"
  | Json.bool true => "True"
  | Json.bool false => "False"
  | Json.num n => toString n
  | Json.str s => pyReprString s
  | Json.arr l => "[" ++ pyReprList l ++ "]"
  | Json.obj kvs => "\x7b" ++ pyReprObj kvs ++ "\x7d"

/-- Comma-separated reprs of the elements of a list. -/
def pyReprList : List Json → String
  | [] => ""
  | [x] => pyRepr x
  | x :: y :: rest => pyRepr x ++ ", " ++ pyReprList (y :: rest)

/-- Comma-separated repr(key): repr(value) entries of a dict. -/
def pyReprObj : List (String × Json) → String
  | [] => ""
  | [kv] => pyReprString kv.1 ++ ": " ++ pyRepr kv.2
  | kv :: e :: rest => pyReprString kv.1 ++ ": " ++ pyRepr kv.2 ++ ", " ++ pyReprObj (e :: rest)

end

/-- Python str() of a JSON-like value: a str is returned unquoted, any
other value is rendered by repr. -/
def pyStr : Json → String
  | Json.str s => s
  | Json.null => pyRepr Json.null
  | Json.bool b => pyRepr (Json.bool b)
  | Json.num n => pyRepr (Json.num n)
  | Json.arr l => pyRepr (Json.arr l)
  | Json.obj kvs => pyRepr (Json.obj kvs)

/-- Whether the second character list starts with the first. -/
def startsWithList : List Char → List Char → Bool
  | [], _ => true
  | _ :: _, [] => false
  | a :: t, b :: u => a == b && startsWithList t u

/-- Whether the first character list occurs contiguously in the second
(Python substring containment). -/
def containsRun (needle : List Char) : List Char → Bool
  | [] => needle.isEmpty
  | c :: t => startsWithList needle (c :: t) || containsRun needle t

/-- Python membership test (a string key in a value): key containment for
a dict, element equality for a list, substring test for a str, and a
TypeError (modelled as Except.error) for None, bool and numbers. -/
def pyInStr (k : String) : Json → Except Unit Bool
  | Json.obj kvs => Except.ok (findVal kvs k).isSome
  | Json.arr l => Except.ok (l.any (fun v => match v with
      | Json.str s => s == k
      | _ => false))
  | Json.str s => Except.ok (containsRun k.toList s.toList)
  | _ => Except.error ()

/-- Python subscription value[k] with a string key: dict lookup
(KeyError when absent), TypeError on anything else (list and str demand
integer indices; JSON dict keys are strings, so dict[k] never sees a
non-string key here). -/
def pyGetItem (k : String) : Json → Except Unit Json
  | Json.obj kvs =>
    match findVal kvs k with
    | some v => Except.ok v
    | none => Except.error ()
  | _ => Except.error ()

/-- Python value.get(k, d): dict lookup with default, AttributeError
(modelled as Except.error) when the value is not a dict. -/
def pyDictGet (k : String) (d : Json) : Json → Except Unit Json
  | Json.obj kvs => Except.ok (findValD kvs k d)
  | _ => Except.error ()

/-- Python value[0]: first element of a list (IndexError when empty),
one-character string for a nonempty str, KeyError for a dict (JSON dict
keys are strings, never the int 0), TypeError otherwise. -/
def pyIndex0 : Json → Except Unit Json
  | Json.arr (x :: _) => Except.ok x
  | Json.arr [] => Except.error ()
  | Json.str s =>
    match s.toList with
    | c :: _ => Except.ok (Json.str (String.mk [c]))
    | [] => Except.error ()
  | _ => Except.error ()

/-- Whether a JSON-like value is a dict (Python isinstance(v, dict)). -/
def isDict : Json → Bool
  | Json.obj _ => true
  | _ => false

/-- Whether a JSON-like value is a list (Python isinstance(v, list)). -/
def isList : Json → Bool
  | Json.arr _ => true
  | _ => false

/-- The elif/else part of the defensive extraction in get_answer
(src/LLM_QA_CLI.py lines 130-134): if the first choice has a "text"
field use it (with falsy values replaced by ""), else fall back to
str(first). -/
def elif_text (first : Json) : Except Unit Json :=
  match pyInStr "text" first with
  | Except.error e => Except.error e
  | Except.ok hasText =>
    if hasText then
      match pyDictGet "text" (Json.str "") first with
      | Except.error e => Except.error e
      | Except.ok t => Except.ok (pyOr t (Json.str ""))
    else Except.ok (Json.str (pyStr first))

/-- The body of the inner try in get_answer (src/LLM_QA_CLI.py lines
123-134): read choices (default []), and when it is a truthy list take
the first element (falsy replaced by \x7b\x7d), prefer a dict-valued
"message" field's "content" (falsy replaced by ""), else the "text"
field, else str(first).  An Except.error models a raised exception. -/
def assistant_text_body (raw : Json) : Except Unit Json :=
  match pyDictGet "choices" (Json.arr []) raw with
  | Except.error e => Except.error e
  | Except.ok choices =>
    if jsonTruthy choices && isList choices then
      match choices with
      | Json.arr (c :: _) =>
        let first := pyOr c (Json.obj [])
        match pyInStr "message" first with
        | Except.error e => Except.error e
        | Except.ok hasMsg =>
          if hasMsg then
            match pyGetItem "message" first with
            | Except.error e => Except.error e
            | Except.ok mv =>
              if isDict mv then
                match pyDictGet "content" (Json.str "") mv with
                | Except.error e => Except.error e
                | Except.ok content => Except.ok (pyOr content (Json.str ""))
              else elif_text first
          else elif_text first
      -- unreachable: a truthy list is nonempty
      | _ => Except.ok (Json.str "")
    else Except.ok (Json.str "")

/-- The assistant text computed by get_answer (src/LLM_QA_CLI.py lines
122-136): the inner try body, with any raised exception caught and
replaced by "". -/
def assistant_text (raw : Json) : Json :=
  match assistant_text_body raw with
  | Except.ok v => v
  | Except.error _ => Json.str ""

/-- The body of the try in call_groq_chat (src/app.py line 60):
data.get("choices", [])[0].get("message", \x7b\x7d).get("content", ""). -/
def app_assistant_text_body (data : Json) : Except Unit Json :=
  match pyDictGet "choices" (Json.arr []) data with
  | Except.error e => Except.error e
  | Except.ok choices =>
    match pyIndex0 choices with
    | Except.error e => Except.error e
    | Except.ok first =>
      match pyDictGet "message" (Json.obj []) first with
      | Except.error e => Except.error e
      | Except.ok mv => pyDictGet "content" (Json.str "") mv

/-- The assistant text computed by call_groq_chat (src/app.py lines
56-62): the try body with any raised exception caught and replaced
by "". -/
def app_assistant_text (data : Json) : Json :=
  match app_assistant_text_body data with
  | Except.ok v => v
  | Except.error _ => Json.str ""

/-- Whitespace characters matched by the regex class backslash-s and
stripped by str.strip (ASCII model: space, tab, newline, vertical tab,
form feed, carriage return). -/
def isPySpace (c : Char) : Bool :=
  c == ' ' || c == Char.ofNat 9 || c == Char.ofNat 10 || c == Char.ofNat 11 ||
    c == Char.ofNat 12 || c == Char.ofNat 13

/-- The 32 characters of Python string.punctuation. -/
def punctuationChars : List Char :=
  "!\"#$%&\x27()*+,-./:;<=>?@[\\]^_\x60\x7b|\x7d~".toList

/-- Whether a character is in string.punctuation (removed by the
translate step of simple_preprocess). -/
def isPunct (c : Char) : Bool := punctuationChars.contains c

/-- Python str.lower on a character (ASCII model: maps A-Z to a-z,
leaves everything else unchanged). -/
def pyLower (c : Char) : Char :=
  if 65 ≤ c.toNat ∧ c.toNat ≤ 90 then Char.ofNat (c.toNat + 32) else c

/-- Whether a character is an ASCII uppercase letter. -/
def isUpperPy (c : Char) : Bool := decide (65 ≤ c.toNat ∧ c.toNat ≤ 90)

/-- Replace each maximal run of whitespace by a single space, as in
re.sub over backslash-s+.  The flag records whether the previous
character belonged to a whitespace run already replaced. -/
def collapseAux : Bool → List Char → List Char
  | _, [] => []
  | inRun, c :: rest =>
    if isPySpace c then
      (if inRun then [] else [' ']) ++ collapseAux true rest
    else c :: collapseAux false rest

/-- Replace each maximal whitespace run by a single space
(re.sub of backslash-s+ with " "). -/
def collapseWS (l : List Char) : List Char := collapseAux false l

/-- Drop trailing whitespace. -/
def rstripWS (l : List Char) : List Char := (l.reverse.dropWhile isPySpace).reverse

/-- Drop leading and trailing whitespace (Python str.strip). -/
def stripWS (l : List Char) : List Char := rstripWS (l.dropWhile isPySpace)

/-- Python str.strip on a String. -/
def pyStrip (s : String) : String := String.mk (stripWS s.toList)

/-- Python s.split(" "): cut at every single space, keeping empty pieces
(so "".split(" ") is [""], and consecutive spaces yield empty pieces). -/
def splitSp : List Char → List (List Char)
  | [] => [[]]
  | c :: rest =>
    if c = ' ' then [] :: splitSp rest
    else
      match splitSp rest with
      | [] => [[c]]
      | w :: ws => (c :: w) :: ws

/-- The cleaned character sequence of simple_preprocess
(src/LLM_QA_CLI.py lines 46-54): lowercase, drop punctuation, collapse
whitespace runs to single spaces and trim the ends. -/
def cleanList (l : List Char) : List Char :=
  stripWS (collapseWS ((l.map pyLower).filter (fun c => !isPunct c)))

/-- simple_preprocess (src/LLM_QA_CLI.py lines 35-59): coerce the input
to a string, lowercase it, remove punctuation, collapse whitespace, and
tokenize on single spaces (an empty cleaned string yields no tokens). -/
def simple_preprocess (text : Json) : String × List String :=
  let s := pyStr text
  let cleaned := cleanList s.toList
  (String.mk cleaned, if cleaned.isEmpty then [] else (splitSp cleaned).map String.mk)

/-- Static configuration read from the environment (GROQ_API_KEY,
GROQ_MODEL, GROQ_OPENAI_BASE) in src/LLM_QA_CLI.py lines 25-28. -/
structure Config where
  apiKey : Option String
  model : String
  base : String

/-- The JSON body posted to the chat-completions endpoint; messages are
(role, content) pairs and temperature is the literal 0.2 = 1/5. -/
structure Payload where
  model : String
  messages : List (String × Json)
  temperature : ℚ
  max_tokens : Nat

/-- The request body built identically by _call_groq_chat_raw
(src/LLM_QA_CLI.py lines 78-86) and call_groq_chat (src/app.py lines
39-48): a fixed system message and the user question, verbatim. -/
def buildPayload (question : Json) (model : String) : Payload :=
  { model := model
    messages := [("system", Json.str "You are a helpful assistant."),
                 ("user", question)]
    temperature := (2 : ℚ) / 10
    max_tokens := 512 }

/-- An outbound HTTP POST as issued by requests.post: target URL, bearer
token, JSON body. -/
structure Request where
  url : String
  bearer : String
  payload : Payload

/-- A provider HTTP response attached to a raised HTTPError: its body
parsed as JSON when possible, and its raw text. -/
structure HtResp where
  jsonBody : Option Json
  text : String

/-- What the network does for the single POST of one call: a parsed 2xx
JSON body, a non-2xx status (raise_for_status raises HTTPError, whose
response attribute the code guards against being None), or a
transport-level failure (a requests.RequestException). -/
inductive ProviderOutcome where
  | success : Json → ProviderOutcome
  | httpError : Option HtResp → String → ProviderOutcome
  | networkError : String → ProviderOutcome

/-- The exceptions get_answer distinguishes: RuntimeError for a missing
API key, requests HTTPError carrying the provider response, and any
other requests failure. -/
inductive PyErr where
  | runtimeError : String → PyErr
  | httpError : Option HtResp → String → PyErr
  | requestException : String → PyErr

/-- _call_groq_chat_raw (src/LLM_QA_CLI.py lines 64-90): raise
RuntimeError when no API key is configured (before any network
attempt), otherwise issue exactly one POST with the exact payload and
return the parsed JSON body or raise.  The second component is the
trace of requests issued. -/
def _call_groq_chat_raw (cfg : Config) (question : Json) (outcome : ProviderOutcome) :
    Except PyErr Json × List Request :=
  match cfg.apiKey with
  | none => (Except.error (PyErr.runtimeError "GROQ_API_KEY is not set in environment variables."), [])
  | some key =>
    let req : Request :=
      { url := cfg.base ++ "/chat/completions"
        bearer := key
        payload := buildPayload question cfg.model }
    match outcome with
    | ProviderOutcome.success raw => (Except.ok raw, [req])
    | ProviderOutcome.httpError r m => (Except.error (PyErr.httpError r m), [req])
    | ProviderOutcome.networkError m => (Except.error (PyErr.requestException m), [req])

/-- The uniform result dict returned by get_answer; preprocessed is the
(cleaned, tokens) metadata present only on success. -/
structure AnswerResult where
  ok : Bool
  answer : Json
  raw : Option Json
  error : Option String
  preprocessed : Option (String × List String)

/-- The rejection returned for an empty or whitespace-only question
(src/LLM_QA_CLI.py line 109). -/
def emptyQuestionResult : AnswerResult :=
  { ok := false, answer := Json.str "", raw := none,
    error := some "Empty question.", preprocessed := none }

/-- The emptiness test of get_answer (src/LLM_QA_CLI.py line 108):
not question or not str(question).strip() — truthiness of the raw
argument first, then truthiness of the stripped string form. -/
def emptyCheck (question : Json) : Bool :=
  !jsonTruthy question || (pyStrip (pyStr question)) == ""

/-- The raw field of the HTTPError branch of get_answer
(src/LLM_QA_CLI.py lines 142-145): the response body parsed as JSON if
possible, else its text, else str(he) when no response is attached. -/
def httpErrorBody (resp : Option HtResp) (msg : String) : Json :=
  match resp with
  | some r =>
    match r.jsonBody with
    | some j => j
    | none => Json.str r.text
  | none => Json.str msg

/-- get_answer (src/LLM_QA_CLI.py lines 95-150): reject empty questions
before any network call, preprocess for metadata only, call the
provider with the original question, defensively extract the assistant
text, and map HTTPError / any other exception to tagged results.  The
second component is the trace of requests issued. -/
def get_answer (cfg : Config) (question : Json) (outcome : ProviderOutcome) :
    AnswerResult × List Request :=
  if emptyCheck question then (emptyQuestionResult, [])
  else
    match _call_groq_chat_raw cfg question outcome with
    | (Except.ok raw, reqs) =>
      ({ ok := true, answer := assistant_text raw, raw := some raw, error := none,
         preprocessed := some (simple_preprocess question) }, reqs)
    | (Except.error (PyErr.httpError resp msg), reqs) =>
      ({ ok := false, answer := Json.str "", raw := some (httpErrorBody resp msg),
         error := some ("Provider HTTP error: " ++ msg), preprocessed := none }, reqs)
    | (Except.error (PyErr.runtimeError msg), reqs) =>
      ({ ok := false, answer := Json.str "", raw := none, error := some msg,
         preprocessed := none }, reqs)
    | (Except.error (PyErr.requestException msg), reqs) =>
      ({ ok := false, answer := Json.str "", raw := none, error := some msg,
         preprocessed := none }, reqs)

/-- call_groq_chat (src/app.py lines 29-64): the web server's own copy
of the provider call.  It posts the same payload to the fixed Groq URL
and, on success, returns the raw response together with its own
defensive extraction; exceptions propagate to the /ask route.  The
second component is the trace of requests issued. -/
def call_groq_chat (apiKey model : String) (question : Json) (outcome : ProviderOutcome) :
    Except PyErr (Json × Json) × List Request :=
  let req : Request :=
    { url := "https://api.groq.com/openai/v1" ++ "/chat/completions"
      bearer := apiKey
      payload := buildPayload question model }
  match outcome with
  | ProviderOutcome.success data => (Except.ok (data, app_assistant_text data), [req])
  | ProviderOutcome.httpError r m => (Except.error (PyErr.httpError r m), [req])
  | ProviderOutcome.networkError m => (Except.error (PyErr.requestException m), [req])

/-- Every whitespace character of the list is a plain space. -/
def allBlank (l : List Char) : Bool := l.all (fun c => !isPySpace c || c == ' ')

/-- No two adjacent characters of the list are both whitespace. -/
def noAdjSpace : List Char → Bool
  | [] => true
  | [_] => true
  | a :: b :: rest => !(isPySpace a && isPySpace b) && noAdjSpace (b :: rest)

/-- The list is empty or starts with a non-whitespace character. -/
def headNotSpace : List Char → Bool
  | [] => true
  | c :: _ => !isPySpace c

lemma toList_mk (l : List Char) : (String.mk l).toList = l := rfl

lemma charToNat_ofNat_add32 (n : Nat) (h1 : 65 ≤ n) (h2 : n ≤ 90) :
    (Char.ofNat (n + 32)).toNat = n + 32 := by
  interval_cases n <;> rfl

lemma pyLower_pyLower (c : Char) : pyLower (pyLower c) = pyLower c := by
  by_cases h : 65 ≤ c.toNat ∧ c.toNat ≤ 90
  · have ht := charToNat_ofNat_add32 c.toNat h.1 h.2
    simp only [pyLower, if_pos h]
    rw [if_neg]
    rw [ht]
    omega
  · simp only [pyLower, if_neg h]

lemma isUpperPy_pyLower (c : Char) : isUpperPy (pyLower c) = false := by
  by_cases h : 65 ≤ c.toNat ∧ c.toNat ≤ 90
  · have ht := charToNat_ofNat_add32 c.toNat h.1 h.2
    simp only [pyLower, if_pos h, isUpperPy, ht]
    simp only [decide_eq_false_iff_not]
    omega
  · simp only [pyLower, if_neg h, isUpperPy, decide_eq_false_iff_not]
    exact h

lemma dropWhile_dropWhile (p : Char → Bool) (l : List Char) :
    (l.dropWhile p).dropWhile p = l.dropWhile p := by
  induction l with
  | nil => rfl
  | cons a t ih =>
    by_cases ha : p a
    · simp [List.dropWhile_cons, ha, ih]
    · simp [List.dropWhile_cons, ha]

lemma eq_dropWhile_head (p : Char → Bool) (c : Char) (t : List Char)
    (h : (c :: t).dropWhile p = c :: t) : p c = false := by
  by_contra hc
  have hc' : p c = true := by
    cases hpc : p c
    · exact absurd hpc hc
    · rfl
  rw [List.dropWhile_cons, if_pos hc'] at h
  have hlen := congrArg List.length h
  have hle := (List.dropWhile_sublist p (l := t)).length_le
  simp at hlen
  omega

lemma rstripWS_rstripWS (l : List Char) : rstripWS (rstripWS l) = rstripWS l := by
  unfold rstripWS
  rw [List.reverse_reverse, dropWhile_dropWhile]

lemma rstrip_decomp (l : List Char) :
    rstripWS l ++ (l.reverse.takeWhile isPySpace).reverse = l := by
  unfold rstripWS
  rw [← List.reverse_append, List.takeWhile_append_dropWhile, List.reverse_reverse]

lemma mem_rstripWS {c : Char} {l : List Char} (h : c ∈ rstripWS l) : c ∈ l := by
  rw [← rstrip_decomp l]
  exact List.mem_append_left _ h

lemma mem_stripWS {c : Char} {l : List Char} (h : c ∈ stripWS l) : c ∈ l := by
  unfold stripWS at h
  have h2 := mem_rstripWS h
  rw [← List.takeWhile_append_dropWhile (p := isPySpace) (l := l)]
  exact List.mem_append_right _ h2

lemma dropWhile_stripWS (l : List Char) :
    (stripWS l).dropWhile isPySpace = stripWS l := by
  unfold stripWS
  have hu : (l.dropWhile isPySpace).dropWhile isPySpace = l.dropWhile isPySpace :=
    dropWhile_dropWhile _ _
  cases h : rstripWS (l.dropWhile isPySpace) with
  | nil => rfl
  | cons c t =>
    have hdec := rstrip_decomp (l.dropWhile isPySpace)
    rw [h] at hdec
    have hu' : (c :: (t ++ ((l.dropWhile isPySpace).reverse.takeWhile isPySpace).reverse)).dropWhile isPySpace
        = c :: (t ++ ((l.dropWhile isPySpace).reverse.takeWhile isPySpace).reverse) := by
      rw [List.cons_append] at hdec
      rw [hdec]
      exact hu
    have hpc := eq_dropWhile_head _ _ _ hu'
    simp [List.dropWhile_cons, hpc]

lemma stripWS_stripWS (l : List Char) : stripWS (stripWS l) = stripWS l := by
  show rstripWS ((stripWS l).dropWhile isPySpace) = stripWS l
  rw [dropWhile_stripWS]
  show rstripWS (rstripWS (l.dropWhile isPySpace)) = stripWS l
  rw [rstripWS_rstripWS]
  rfl

lemma andE {a b : Bool} (h : (a && b) = true) : a = true ∧ b = true := by
  simp only [Bool.and_eq_true] at h
  exact h

lemma andI {a b : Bool} (h1 : a = true) (h2 : b = true) : (a && b) = true := by
  simp [h1, h2]

lemma mem_collapseAux {c : Char} :
    ∀ (b : Bool) (l : List Char), c ∈ collapseAux b l → c = ' ' ∨ c ∈ l := by
  intro b l
  induction l generalizing b with
  | nil => simp [collapseAux]
  | cons a t ih =>
    by_cases ha : isPySpace a
    · cases b with
      | true =>
        intro h
        simp only [collapseAux, ha, if_true, if_pos, List.nil_append] at h
        rcases ih true h with h' | h'
        · exact Or.inl h'
        · exact Or.inr (List.mem_cons_of_mem _ h')
      | false =>
        intro h
        simp only [collapseAux, ha, if_true, if_neg, List.singleton_append] at h
        rcases List.mem_cons.mp h with h' | h'
        · exact Or.inl h'
        · rcases ih true h' with h'' | h''
          · exact Or.inl h''
          · exact Or.inr (List.mem_cons_of_mem _ h'')
    · intro h
      have ha' : isPySpace a = false := by
        cases hx : isPySpace a
        · rfl
        · exact absurd hx ha
      simp only [collapseAux, ha', if_neg, Bool.false_eq_true, reduceIte] at h
      rcases List.mem_cons.mp h with h' | h'
      · exact Or.inr (h' ▸ List.mem_cons_self _ _)
      · rcases ih false h' with h'' | h''
        · exact Or.inl h''
        · exact Or.inr (List.mem_cons_of_mem _ h'')

lemma headNotSpace_collapseAux_true (l : List Char) :
    headNotSpace (collapseAux true l) = true := by
  induction l with
  | nil => rfl
  | cons a t ih =>
    by_cases ha : isPySpace a
    · simpa [collapseAux, ha] using ih
    · simp [collapseAux, ha, headNotSpace]

lemma collapseAux_true_of_head (l : List Char) (h : headNotSpace l = true) :
    collapseAux true l = collapseAux false l := by
  cases l with
  | nil => rfl
  | cons a t =>
    have ha : isPySpace a = false := by simpa [headNotSpace] using h
    simp [collapseAux, ha]

lemma noAdjSpace_tail (a : Char) (t : List Char) (h : noAdjSpace (a :: t) = true) :
    noAdjSpace t = true := by
  cases t with
  | nil => rfl
  | cons b u => exact (andE h).2

lemma noAdjSpace_append_right (t s : List Char) (h : noAdjSpace (t ++ s) = true) :
    noAdjSpace s = true := by
  induction t with
  | nil => exact h
  | cons a t' ih => exact ih (noAdjSpace_tail _ _ h)

lemma noAdjSpace_append_left (t s : List Char) (h : noAdjSpace (t ++ s) = true) :
    noAdjSpace t = true := by
  induction t with
  | nil => rfl
  | cons a t' ih =>
    cases t' with
    | nil => rfl
    | cons b u =>
      have h1 : (!(isPySpace a && isPySpace b)) = true := (andE h).1
      have h2 : noAdjSpace (b :: u) = true := ih (noAdjSpace_tail _ _ h)
      exact andI h1 h2

lemma noAdjSpace_cons_head (a : Char) (u : List Char) (h : headNotSpace u = true)
    (h2 : noAdjSpace u = true) : noAdjSpace (a :: u) = true := by
  cases u with
  | nil => rfl
  | cons c u' =>
    have hc : isPySpace c = false := by simpa [headNotSpace] using h
    exact andI (by simp [hc]) h2

lemma noAdjSpace_cons_notspace (a : Char) (u : List Char) (ha : isPySpace a = false)
    (h2 : noAdjSpace u = true) : noAdjSpace (a :: u) = true := by
  cases u with
  | nil => rfl
  | cons c u' => exact andI (by simp [ha]) h2

lemma allBlank_collapseAux (b : Bool) (l : List Char) :
    allBlank (collapseAux b l) = true := by
  induction l generalizing b with
  | nil => rfl
  | cons a t ih =>
    by_cases ha : isPySpace a
    · cases b with
      | true => simpa [collapseAux, ha] using ih true
      | false =>
        simp only [collapseAux, ha, if_true, if_neg, List.singleton_append]
        simpa [allBlank] using ih true
    · have ha' : isPySpace a = false := by
        cases hx : isPySpace a
        · rfl
        · exact absurd hx ha
      simp only [collapseAux, ha', Bool.false_eq_true, reduceIte]
      simpa [allBlank, ha'] using ih false

lemma noAdjSpace_collapseAux (b : Bool) (l : List Char) :
    noAdjSpace (collapseAux b l) = true := by
  induction l generalizing b with
  | nil => rfl
  | cons a t ih =>
    by_cases ha : isPySpace a
    · cases b with
      | true => simpa [collapseAux, ha] using ih true
      | false =>
        simp only [collapseAux, ha, if_true, if_neg, List.singleton_append]
        exact noAdjSpace_cons_head _ _ (headNotSpace_collapseAux_true t) (ih true)
    · have ha' : isPySpace a = false := by
        cases hx : isPySpace a
        · rfl
        · exact absurd hx ha
      simp only [collapseAux, ha', Bool.false_eq_true, reduceIte]
      exact noAdjSpace_cons_notspace _ _ ha' (ih false)

lemma collapseAux_false_id (l : List Char) (h1 : allBlank l = true)
    (h2 : noAdjSpace l = true) : collapseAux false l = l := by
  induction l with
  | nil => rfl
  | cons a t ih =>
    have h1t : allBlank t = true := by
      simp only [allBlank, List.all_cons, Bool.and_eq_true] at h1
      exact h1.2
    have h2t : noAdjSpace t = true := noAdjSpace_tail _ _ h2
    by_cases ha : isPySpace a
    · have haeq : a = ' ' := by
        simp only [allBlank, List.all_cons, Bool.and_eq_true] at h1
        have := h1.1
        simp [ha] at this
        exact this
      have hht : headNotSpace t = true := by
        cases t with
        | nil => rfl
        | cons b u =>
          have hpair : (!(isPySpace a && isPySpace b)) = true := (andE h2).1
          simp only [ha, Bool.true_and, Bool.not_eq_true'] at hpair
          simp [headNotSpace, hpair]
      simp only [collapseAux, ha, if_true]
      rw [collapseAux_true_of_head t hht, ih h1t h2t, haeq]
      simp
    · have ha' : isPySpace a = false := by
        cases hx : isPySpace a
        · rfl
        · exact absurd hx ha
      simp only [collapseAux, ha', Bool.false_eq_true, reduceIte]
      rw [ih h1t h2t]

lemma allBlank_stripWS (l : List Char) (h : allBlank l = true) :
    allBlank (stripWS l) = true := by
  simp only [allBlank, List.all_eq_true] at h ⊢
  intro c hc
  exact h c (mem_stripWS hc)

lemma noAdjSpace_stripWS (l : List Char) (h : noAdjSpace l = true) :
    noAdjSpace (stripWS l) = true := by
  have hdrop : noAdjSpace (l.dropWhile isPySpace) = true := by
    have hsplit := List.takeWhile_append_dropWhile (p := isPySpace) (l := l)
    exact noAdjSpace_append_right _ _ (by rw [hsplit]; exact h)
  unfold stripWS
  have hdec := rstrip_decomp (l.dropWhile isPySpace)
  exact noAdjSpace_append_left _ _ (by rw [hdec]; exact hdrop)

lemma collapseWS_cleanList (l : List Char) :
    collapseWS (cleanList l) = cleanList l := by
  unfold cleanList collapseWS
  set F := (l.map pyLower).filter (fun c => !isPunct c) with hF
  have h1 : allBlank (stripWS (collapseWS F)) = true :=
    allBlank_stripWS _ (allBlank_collapseAux false F)
  have h2 : noAdjSpace (stripWS (collapseWS F)) = true :=
    noAdjSpace_stripWS _ (noAdjSpace_collapseAux false F)
  exact collapseAux_false_id _ h1 h2

lemma stripWS_cleanList (l : List Char) :
    stripWS (cleanList l) = cleanList l := by
  unfold cleanList
  exact stripWS_stripWS _

lemma mem_cleanList {c : Char} {l : List Char} (h : c ∈ cleanList l) :
    isPunct c = false ∧ isUpperPy c = false ∧ pyLower c = c := by
  unfold cleanList at h
  have h2 : c ∈ collapseWS ((l.map pyLower).filter (fun c => !isPunct c)) :=
    mem_stripWS h
  rcases mem_collapseAux false _ h2 with hsp | hmem
  · subst hsp
    refine ⟨by decide, by decide, by decide⟩
  · have hf := List.mem_filter.mp hmem
    have hpunct : isPunct c = false := by
      have := hf.2
      simpa using this
    rcases List.mem_map.mp hf.1 with ⟨a, _, ha⟩
    subst ha
    exact ⟨hpunct, isUpperPy_pyLower a, pyLower_pyLower a⟩

lemma cleanList_cleanList (l : List Char) :
    cleanList (cleanList l) = cleanList l := by
  have hmap : (cleanList l).map pyLower = cleanList l := by
    have : (cleanList l).map pyLower = (cleanList l).map id :=
      List.map_congr_left (fun c hc => (mem_cleanList hc).2.2)
    rw [this, List.map_id]
  have hfil : (cleanList l).filter (fun c => !isPunct c) = cleanList l :=
    List.filter_eq_self.mpr (fun c hc => by simp [(mem_cleanList hc).1])
  show stripWS (collapseWS (((cleanList l).map pyLower).filter (fun c => !isPunct c))) = cleanList l
  rw [hmap, hfil, collapseWS_cleanList, stripWS_cleanList]

lemma splitSp_ne_nil (l : List Char) : splitSp l ≠ [] := by
  cases l with
  | nil => simp [splitSp]
  | cons c rest =>
    by_cases hc : c = ' '
    · simp [splitSp, hc]
    · simp only [splitSp, hc, reduceIte]
      cases h : splitSp rest with
      | nil => simp
      | cons w ws => simp

lemma mem_splitSp {w : List Char} {l : List Char} (hw : w ∈ splitSp l) :
    ∀ c ∈ w, c ∈ l := by
  induction l generalizing w with
  | nil =>
    simp only [splitSp, List.mem_singleton] at hw
    subst hw
    intro c hc
    exact absurd hc (List.not_mem_nil c)
  | cons a t ih =>
    by_cases hsp : a = ' '
    · simp only [splitSp, hsp, reduceIte, List.mem_cons] at hw
      rcases hw with hw | hw
      · subst hw
        intro c hc
        exact absurd hc (List.not_mem_nil c)
      · intro c hc
        exact List.mem_cons_of_mem _ (ih hw c hc)
    · simp only [splitSp, hsp, reduceIte] at hw
      cases h : splitSp t with
      | nil => exact absurd h (splitSp_ne_nil t)
      | cons w0 ws =>
        rw [h] at hw
        rcases List.mem_cons.mp hw with hw' | hw'
        · subst hw'
          intro c hc
          rcases List.mem_cons.mp hc with hc' | hc'
          · exact hc' ▸ List.mem_cons_self _ _
          · have hw0 : w0 ∈ splitSp t := by rw [h]; exact List.mem_cons_self _ _
            exact List.mem_cons_of_mem _ (ih hw0 c hc')
        · have hww : w ∈ splitSp t := by rw [h]; exact List.mem_cons_of_mem _ hw'
          intro c hc
          exact List.mem_cons_of_mem _ (ih hww c hc)

lemma stripWS_eq_nil (l : List Char) (h : l.all isPySpace = true) : stripWS l = [] := by
  have hd : l.dropWhile isPySpace = [] := by
    rw [List.dropWhile_eq_nil_iff]
    intro x hx
    exact (List.all_eq_true.mp h) x hx
  unfold stripWS rstripWS
  rw [hd]
  rfl

lemma emptyCheck_space (s : String) (h : s.toList.all isPySpace = true) :
    emptyCheck (Json.str s) = true := by
  have hstrip : pyStrip s = "" := by
    unfold pyStrip
    rw [stripWS_eq_nil _ h]
  simp [emptyCheck, pyStr, hstrip]

lemma get_answer_reject (cfg : Config) (q : Json) (outcome : ProviderOutcome)
    (h : emptyCheck q = true) : get_answer cfg q outcome = (emptyQuestionResult, []) := by
  simp [get_answer, h]

lemma get_answer_success (cfg : Config) (key : String) (q raw : Json)
    (hk : cfg.apiKey = some key) (hq : emptyCheck q = false) :
    get_answer cfg q (ProviderOutcome.success raw) =
      ({ ok := true, answer := assistant_text raw, raw := some raw, error := none,
         preprocessed := some (simple_preprocess q) },
       [{ url := cfg.base ++ "/chat/completions", bearer := key,
          payload := buildPayload q cfg.model }]) := by
  simp [get_answer, hq, _call_groq_chat_raw, hk]

lemma truthy_obj_ne_nil (fkvs : List (String × Json)) (h : fkvs ≠ []) :
    jsonTruthy (Json.obj fkvs) = true := by
  cases fkvs with
  | nil => exact absurd rfl h
  | cons a b => rfl

lemma findVal_ne_nil {fkvs : List (String × Json)} {k : String} {v : Json}
    (h : findVal fkvs k = some v) : fkvs ≠ [] := by
  intro hn
  rw [hn] at h
  simp [findVal] at h

lemma pyOr_str (s : String) : pyOr (Json.str s) (Json.str "") = Json.str s := by
  by_cases h : s = ""
  · subst h
    rfl
  · simp only [pyOr, jsonTruthy]
    rw [if_pos]
    simp [h]

lemma assistant_text_msg (kvs fkvs mv : List (String × Json)) (rest : List Json)
    (hc : findValD kvs "choices" (Json.arr []) = Json.arr (Json.obj fkvs :: rest))
    (hm : findVal fkvs "message" = some (Json.obj mv)) :
    assistant_text (Json.obj kvs) =
      pyOr (findValD mv "content" (Json.str "")) (Json.str "") := by
  have hne : fkvs ≠ [] := findVal_ne_nil hm
  have htr : jsonTruthy (Json.obj fkvs) = true := truthy_obj_ne_nil _ hne
  unfold assistant_text assistant_text_body
  rw [show pyDictGet "choices" (Json.arr []) (Json.obj kvs)
        = Except.ok (findValD kvs "choices" (Json.arr [])) from rfl, hc]
  simp only [jsonTruthy, isList, List.isEmpty_cons, Bool.not_false, Bool.and_self, if_true]
  rw [show pyOr (Json.obj fkvs) (Json.obj []) = Json.obj fkvs from by simp [pyOr, htr]]
  rw [show pyInStr "message" (Json.obj fkvs)
        = Except.ok (findVal fkvs "message").isSome from rfl, hm]
  simp only [Option.isSome_some, if_true]
  rw [show pyGetItem "message" (Json.obj fkvs)
        = (match findVal fkvs "message" with
           | some v => Except.ok v
           | none => Except.error ()) from rfl, hm]
  rfl

lemma app_assistant_text_msg (kvs fkvs mv : List (String × Json)) (rest : List Json)
    (hc : findValD kvs "choices" (Json.arr []) = Json.arr (Json.obj fkvs :: rest))
    (hm : findVal fkvs "message" = some (Json.obj mv)) :
    app_assistant_text (Json.obj kvs) = findValD mv "content" (Json.str "") := by
  unfold app_assistant_text app_assistant_text_body
  rw [show pyDictGet "choices" (Json.arr []) (Json.obj kvs)
        = Except.ok (findValD kvs "choices" (Json.arr [])) from rfl, hc]
  simp only [pyIndex0]
  rw [show pyDictGet "message" (Json.obj []) (Json.obj fkvs)
        = Except.ok (findValD fkvs "message" (Json.obj [])) from rfl]
  rw [show findValD fkvs "message" (Json.obj []) = Json.obj mv from by
    simp [findValD, hm]]
  rfl

lemma assistant_text_unrecognized (kvs fkvs : List (String × Json)) (rest : List Json)
    (hc : findValD kvs "choices" (Json.arr []) = Json.arr (Json.obj fkvs :: rest))
    (hne : fkvs ≠ [])
    (hmsg : ∀ v, findVal fkvs "message" = some v → isDict v = false)
    (htext : findVal fkvs "text" = none) :
    assistant_text (Json.obj kvs) = Json.str (pyStr (Json.obj fkvs)) := by
  have htr : jsonTruthy (Json.obj fkvs) = true := truthy_obj_ne_nil _ hne
  have helif : elif_text (Json.obj fkvs) = Except.ok (Json.str (pyStr (Json.obj fkvs))) := by
    unfold elif_text
    rw [show pyInStr "text" (Json.obj fkvs)
          = Except.ok (findVal fkvs "text").isSome from rfl, htext]
    rfl
  unfold assistant_text assistant_text_body
  rw [show pyDictGet "choices" (Json.arr []) (Json.obj kvs)
        = Except.ok (findValD kvs "choices" (Json.arr [])) from rfl, hc]
  simp only [jsonTruthy, isList, List.isEmpty_cons, Bool.not_false, Bool.and_self, if_true]
  rw [show pyOr (Json.obj fkvs) (Json.obj []) = Json.obj fkvs from by simp [pyOr, htr]]
  rw [show pyInStr "message" (Json.obj fkvs)
        = Except.ok (findVal fkvs "message").isSome from rfl]
  cases h : findVal fkvs "message" with
  | none =>
    simp only [Option.isSome_none, Bool.false_eq_true, reduceIte, helif]
  | some v =>
    have hd : isDict v = false := hmsg v h
    simp only [Option.isSome_some, if_true]
    rw [show pyGetItem "message" (Json.obj fkvs)
          = (match findVal fkvs "message" with
             | some v => Except.ok v
             | none => Except.error ()) from rfl, h]
    simp only [hd, Bool.false_eq_true, reduceIte, helif]

/-- C1: for every question argument that is an empty string or consists
only of whitespace, get_answer returns exactly the rejection result
ok = false, answer = "", raw = none, error = "Empty question.", and no
request is issued (the provider client is never invoked), whatever the
provider would have answered. -/
theorem C1_empty_question_rejected (cfg : Config) (outcome : ProviderOutcome)
    (s : String) (h : s.toList.all isPySpace = true) :
    get_answer cfg (Json.str s) outcome =
      ({ ok := false, answer := Json.str "", raw := none,
         error := some "Empty question.", preprocessed := none }, []) := by
  rw [get_answer_reject _ _ _ (emptyCheck_space s h)]
  rfl

theorem C1_witness :
    ("   ".toList.all isPySpace = true) ∧
    get_answer ⟨some "k", "m", "b"⟩ (Json.str "   ")
        (ProviderOutcome.success (Json.obj [])) =
      ({ ok := false, answer := Json.str "", raw := none,
         error := some "Empty question.", preprocessed := none }, []) :=
  ⟨by decide, C1_empty_question_rejected ⟨some "k", "m", "b"⟩
    (ProviderOutcome.success (Json.obj [])) "   " (by decide)⟩

/-- C3: for every non-empty question (and configured API key), both
provider clients issue exactly one POST whose body is exactly
model, the two fixed-role messages with the question verbatim
(unmodified by normalization), temperature 0.2 and max_tokens 512. -/
theorem C3_single_post_exact_body (cfg : Config) (key model : String) (q : Json)
    (outcome : ProviderOutcome) (hk : cfg.apiKey = some key)
    (hq : emptyCheck q = false) :
    (get_answer cfg q outcome).2 =
      [{ url := cfg.base ++ "/chat/completions", bearer := key,
         payload := { model := cfg.model,
                      messages := [("system", Json.str "You are a helpful assistant."),
                                   ("user", q)],
                      temperature := (2 : ℚ) / 10,
                      max_tokens := 512 } }] ∧
    (call_groq_chat key model q outcome).2 =
      [{ url := "https://api.groq.com/openai/v1" ++ "/chat/completions", bearer := key,
         payload := { model := model,
                      messages := [("system", Json.str "You are a helpful assistant."),
                                   ("user", q)],
                      temperature := (2 : ℚ) / 10,
                      max_tokens := 512 } }] := by
  constructor
  · cases outcome <;> simp [get_answer, hq, _call_groq_chat_raw, hk, buildPayload]
  · cases outcome <;> simp [call_groq_chat, buildPayload]

theorem C3_witness :
    (get_answer ⟨some "k", "m", "b"⟩ (Json.str "hi")
        (ProviderOutcome.success (Json.obj []))).2 =
      [{ url := "b" ++ "/chat/completions", bearer := "k",
         payload := { model := "m",
                      messages := [("system", Json.str "You are a helpful assistant."),
                                   ("user", Json.str "hi")],
                      temperature := (2 : ℚ) / 10,
                      max_tokens := 512 } }] :=
  (C3_single_post_exact_body ⟨some "k", "m", "b"⟩ "k" "m" (Json.str "hi")
    (ProviderOutcome.success (Json.obj [])) rfl (by decide)).1

/-- C5: when the provider returns a non-2xx status (an HTTPError with an
attached response), get_answer returns ok = false, answer = "", raw set
to the provider's error body (parsed as JSON if possible, else the raw
text) rather than none, and an error string beginning with
"Provider HTTP error:". -/
theorem C5_provider_http_error (cfg : Config) (key : String) (q : Json)
    (r : HtResp) (msg : String) (hk : cfg.apiKey = some key)
    (hq : emptyCheck q = false) :
    (get_answer cfg q (ProviderOutcome.httpError (some r) msg)).1 =
      { ok := false, answer := Json.str "",
        raw := some (match r.jsonBody with
                     | some j => j
                     | none => Json.str r.text),
        error := some ("Provider HTTP error: " ++ msg), preprocessed := none } ∧
    (get_answer cfg q (ProviderOutcome.httpError (some r) msg)).1.raw ≠ none ∧
    (∃ t, (get_answer cfg q (ProviderOutcome.httpError (some r) msg)).1.error
        = some ("Provider HTTP error: " ++ t)) := by
  have h1 : (get_answer cfg q (ProviderOutcome.httpError (some r) msg)).1 =
      { ok := false, answer := Json.str "",
        raw := some (match r.jsonBody with
                     | some j => j
                     | none => Json.str r.text),
        error := some ("Provider HTTP error: " ++ msg), preprocessed := none } := by
    simp [get_answer, hq, _call_groq_chat_raw, hk, httpErrorBody]
  refine ⟨h1, ?_, ⟨msg, ?_⟩⟩
  · rw [h1]
    cases hj : r.jsonBody <;> simp
  · rw [h1]

theorem C5_witness :
    (get_answer ⟨some "k", "m", "b"⟩ (Json.str "hi")
        (ProviderOutcome.httpError
          (some { jsonBody := some (Json.obj [("error", Json.str "rate limit")]),
                  text := "rate limit body" })
          "429 Client Error")).1 =
      { ok := false, answer := Json.str "",
        raw := some (Json.obj [("error", Json.str "rate limit")]),
        error := some ("Provider HTTP error: " ++ "429 Client Error"),
        preprocessed := none } :=
  (C5_provider_http_error ⟨some "k", "m", "b"⟩ "k" (Json.str "hi")
    { jsonBody := some (Json.obj [("error", Json.str "rate limit")]),
      text := "rate limit body" }
    "429 Client Error" rfl (by decide)).1

/-- C10: for every falsy question argument (None, False, 0, the empty
list, the empty dict, and also the empty string), get_answer returns the
"Empty question." rejection with no request issued, because line 108
tests truthiness of the raw argument before coercing it to a string --
even when that coercion (e.g. str(0) = "0") would be non-empty. -/
theorem C10_falsy_question_rejected (cfg : Config) (outcome : ProviderOutcome)
    (q : Json) (h : jsonTruthy q = false) :
    get_answer cfg q outcome =
      ({ ok := false, answer := Json.str "", raw := none,
         error := some "Empty question.", preprocessed := none }, []) := by
  have hch : emptyCheck q = true := by simp [emptyCheck, h]
  rw [get_answer_reject _ _ _ hch]
  rfl

theorem C10_witness :
    jsonTruthy (Json.num 0) = false ∧ pyStr (Json.num 0) = "0" ∧
    get_answer ⟨some "k", "m", "b"⟩ (Json.num 0)
        (ProviderOutcome.success (Json.obj [])) =
      ({ ok := false, answer := Json.str "", raw := none,
         error := some "Empty question.", preprocessed := none }, []) :=
  ⟨rfl, rfl, C10_falsy_question_rejected ⟨some "k", "m", "b"⟩
    (ProviderOutcome.success (Json.obj [])) (Json.num 0) rfl⟩

/-- C2 counterexample: on the legacy text-based response shape
choices = [(text = "legacy-answer")], the CLI pipeline (get_answer)
extracts "legacy-answer" while the web pipeline (call_groq_chat)
extracts "" -- the two presentation forms do not produce equal answers,
refuting the claim at this concrete input. -/
theorem C2_counterexample :
    (get_answer ⟨some "k", "m", "b"⟩ (Json.str "hi")
        (ProviderOutcome.success
          (Json.obj [("choices", Json.arr [Json.obj [("text", Json.str "legacy-answer")]])]))).1.answer
      = Json.str "legacy-answer" ∧
    (call_groq_chat "k" "m" (Json.str "hi")
        (ProviderOutcome.success
          (Json.obj [("choices", Json.arr [Json.obj [("text", Json.str "legacy-answer")]])]))).1
      = Except.ok
          (Json.obj [("choices", Json.arr [Json.obj [("text", Json.str "legacy-answer")]])],
           Json.str "") ∧
    Json.str "legacy-answer" ≠ Json.str "" := by
  refine ⟨rfl, rfl, ?_⟩
  simp

/-- C2 (amended): the two pipelines produce the same answer on
message-based responses -- whenever the first choice is a mapping whose
"message" field is a mapping whose "content" value is a string, both
the Answer Service (get_answer) and the web pipeline (call_groq_chat)
yield exactly that string; they diverge on the legacy text-based and
unrecognized first-choice shapes. -/
theorem C2_pipelines_agree_on_message_shape (cfg : Config) (key : String) (q : Json)
    (kvs fkvs mv : List (String × Json)) (rest : List Json) (s : String)
    (hk : cfg.apiKey = some key) (hq : emptyCheck q = false)
    (hc : findValD kvs "choices" (Json.arr []) = Json.arr (Json.obj fkvs :: rest))
    (hm : findVal fkvs "message" = some (Json.obj mv))
    (hs : findValD mv "content" (Json.str "") = Json.str s) :
    (get_answer cfg q (ProviderOutcome.success (Json.obj kvs))).1.answer = Json.str s ∧
    (call_groq_chat key cfg.model q (ProviderOutcome.success (Json.obj kvs))).1 =
      Except.ok (Json.obj kvs, Json.str s) := by
  constructor
  · rw [get_answer_success cfg key q _ hk hq]
    show assistant_text (Json.obj kvs) = Json.str s
    rw [assistant_text_msg kvs fkvs mv rest hc hm, hs, pyOr_str]
  · show Except.ok (Json.obj kvs, app_assistant_text (Json.obj kvs)) = _
    rw [app_assistant_text_msg kvs fkvs mv rest hc hm, hs]

theorem C2_witness :
    (get_answer ⟨some "k", "m", "b"⟩ (Json.str "hi")
        (ProviderOutcome.success
          (Json.obj [("choices",
            Json.arr [Json.obj [("message", Json.obj [("content", Json.str "42")])]])]))).1.answer
      = Json.str "42" ∧
    (call_groq_chat "k" "m" (Json.str "hi")
        (ProviderOutcome.success
          (Json.obj [("choices",
            Json.arr [Json.obj [("message", Json.obj [("content", Json.str "42")])]])]))).1
      = Except.ok
          (Json.obj [("choices",
            Json.arr [Json.obj [("message", Json.obj [("content", Json.str "42")])]])],
           Json.str "42") :=
  C2_pipelines_agree_on_message_shape ⟨some "k", "m", "b"⟩ "k" (Json.str "hi")
    [("choices", Json.arr [Json.obj [("message", Json.obj [("content", Json.str "42")])]])]
    [("message", Json.obj [("content", Json.str "42")])]
    [("content", Json.str "42")] [] "42"
    rfl (by decide) rfl rfl rfl

/-- C4 counterexample: with the provider response
choices = [(message = (content = false))], the first choice has a
mapping-valued message field, yet the extractor yields "" and not the
content value false (because of the trailing or "" on line 129),
refuting the claim as stated at this concrete input. -/
theorem C4_counterexample :
    assistant_text
      (Json.obj [("choices",
        Json.arr [Json.obj [("message", Json.obj [("content", Json.bool false)])]])])
      = Json.str "" ∧
    Json.str "" ≠ Json.bool false := by
  refine ⟨rfl, ?_⟩
  simp

/-- C4 (amended): when the first choice contains a mapping-valued
message field, the extracted assistant text is that mapping's content
value if that value is truthy, and the empty string when the content
field is absent, null, or otherwise falsy; in particular
content = "42" extracts to "42". -/
theorem C4_message_content_extraction (kvs fkvs mv : List (String × Json))
    (rest : List Json)
    (hc : findValD kvs "choices" (Json.arr []) = Json.arr (Json.obj fkvs :: rest))
    (hm : findVal fkvs "message" = some (Json.obj mv)) :
    assistant_text (Json.obj kvs) =
      pyOr (findValD mv "content" (Json.str "")) (Json.str "") ∧
    (findVal mv "content" = none → assistant_text (Json.obj kvs) = Json.str "") ∧
    (findVal mv "content" = some Json.null → assistant_text (Json.obj kvs) = Json.str "") := by
  have h := assistant_text_msg kvs fkvs mv rest hc hm
  refine ⟨h, ?_, ?_⟩
  · intro hn
    rw [h]
    simp [findValD, hn, pyOr, jsonTruthy]
  · intro hn
    rw [h]
    simp [findValD, hn, pyOr, jsonTruthy]

theorem C4_witness :
    assistant_text
      (Json.obj [("choices",
        Json.arr [Json.obj [("message", Json.obj [("content", Json.str "42")])]])])
      = Json.str "42" := by
  have h := (C4_message_content_extraction
    [("choices", Json.arr [Json.obj [("message", Json.obj [("content", Json.str "42")])]])]
    [("message", Json.obj [("content", Json.str "42")])]
    [("content", Json.str "42")] [] rfl rfl).1
  simpa [findValD, findVal, pyOr, jsonTruthy] using h

/-- C6: the response extractors never propagate a failure: the responses
\x7b\x7d and \x7bchoices: []\x7d extract to "" in both pipelines, every
success response -- however malformed -- leaves get_answer with
ok = true and error = none, and call_groq_chat returns Except.ok on
every success response. -/
theorem C6_extractor_never_fails :
    assistant_text (Json.obj []) = Json.str "" ∧
    assistant_text (Json.obj [("choices", Json.arr [])]) = Json.str "" ∧
    app_assistant_text (Json.obj []) = Json.str "" ∧
    app_assistant_text (Json.obj [("choices", Json.arr [])]) = Json.str "" ∧
    (∀ (cfg : Config) (key : String) (q raw : Json),
      cfg.apiKey = some key → emptyCheck q = false →
      (get_answer cfg q (ProviderOutcome.success raw)).1.ok = true ∧
      (get_answer cfg q (ProviderOutcome.success raw)).1.error = none) ∧
    (∀ (key model : String) (q raw : Json),
      (call_groq_chat key model q (ProviderOutcome.success raw)).1 =
        Except.ok (raw, app_assistant_text raw)) := by
  refine ⟨rfl, rfl, rfl, rfl, ?_, ?_⟩
  · intro cfg key q raw hk hq
    rw [get_answer_success cfg key q raw hk hq]
    exact ⟨rfl, rfl⟩
  · intro key model q raw
    rfl

theorem C6_witness :
    (get_answer ⟨some "k", "m", "b"⟩ (Json.str "hi")
        (ProviderOutcome.success (Json.arr [Json.num 1]))).1.ok = true ∧
    (get_answer ⟨some "k", "m", "b"⟩ (Json.str "hi")
        (ProviderOutcome.success (Json.arr [Json.num 1]))).1.error = none :=
  C6_extractor_never_fails.2.2.2.2.1 ⟨some "k", "m", "b"⟩ "k" (Json.str "hi")
    (Json.arr [Json.num 1]) rfl (by decide)

/-- C7 counterexample: on the response choices = [(foo = "bar")], whose
first choice matches neither the message-based nor the legacy
text-based shape, the extractor returns the string rendering
str(first) = "\x7b\x27foo\x27: \x27bar\x27\x7d", not the empty string,
refuting the claim at this concrete input. -/
theorem C7_counterexample :
    assistant_text (Json.obj [("choices", Json.arr [Json.obj [("foo", Json.str "bar")]])])
      = Json.str "\x7b\x27foo\x27: \x27bar\x27\x7d" ∧
    Json.str "\x7b\x27foo\x27: \x27bar\x27\x7d" ≠ Json.str "" := by
  refine ⟨rfl, ?_⟩
  simp

/-- C7 (amended): when the first choice is a truthy mapping that matches
neither shape (its message field, if any, is not a mapping, and it has
no text field), the extractor returns the string rendering str(first)
of the whole first choice, not the empty string. -/
theorem C7_unrecognized_str_fallback (kvs fkvs : List (String × Json)) (rest : List Json)
    (hc : findValD kvs "choices" (Json.arr []) = Json.arr (Json.obj fkvs :: rest))
    (hne : fkvs ≠ [])
    (hmsg : ∀ v, findVal fkvs "message" = some v → isDict v = false)
    (htext : findVal fkvs "text" = none) :
    assistant_text (Json.obj kvs) = Json.str (pyStr (Json.obj fkvs)) :=
  assistant_text_unrecognized kvs fkvs rest hc hne hmsg htext

theorem C7_witness :
    assistant_text (Json.obj [("choices", Json.arr [Json.obj [("foo", Json.str "bar")]])])
      = Json.str (pyStr (Json.obj [("foo", Json.str "bar")])) :=
  C7_unrecognized_str_fallback
    [("choices", Json.arr [Json.obj [("foo", Json.str "bar")]])]
    [("foo", Json.str "bar")] [] rfl (by simp)
    (by intro v hv; simp [findVal] at hv) rfl

/-- C8: the text normalizer is idempotent -- for every input string s,
running simple_preprocess on the cleaned string it produced yields the
same cleaned string and the same token sequence. -/
theorem C8_normalizer_idempotent (s : String) :
    simple_preprocess (Json.str (simple_preprocess (Json.str s)).1) =
      simple_preprocess (Json.str s) := by
  show simple_preprocess (Json.str (String.mk (cleanList s.toList))) =
    simple_preprocess (Json.str s)
  unfold simple_preprocess
  simp only [pyStr, toList_mk, cleanList_cleanList]

/-- C9: for every non-empty question string, every token produced by the
text normalizer contains no punctuation characters and no uppercase
letters. -/
theorem C9_tokens_clean (s : String) (_h : s ≠ "") :
    ∀ t ∈ (simple_preprocess (Json.str s)).2, ∀ c ∈ t.toList,
      isPunct c = false ∧ isUpperPy c = false := by
  intro t ht c hc
  have h2 : (simple_preprocess (Json.str s)).2 =
      if (cleanList s.toList).isEmpty then []
      else (splitSp (cleanList s.toList)).map String.mk := rfl
  rw [h2] at ht
  by_cases he : (cleanList s.toList).isEmpty
  · rw [if_pos he] at ht
    exact absurd ht (List.not_mem_nil t)
  · rw [if_neg he] at ht
    rcases List.mem_map.mp ht with ⟨w, hw, hwt⟩
    have hcw : c ∈ w := by
      rw [← hwt] at hc
      exact hc
    have hcl : c ∈ cleanList s.toList := mem_splitSp hw c hcw
    have hm := mem_cleanList hcl
    exact ⟨hm.1, hm.2.1⟩

theorem C9_witness :
    (("Hi, there!" : String) ≠ "") ∧
    (∀ t ∈ (simple_preprocess (Json.str "Hi, there!")).2, ∀ c ∈ t.toList,
      isPunct c = false ∧ isUpperPy c = false) :=
  ⟨by decide, C9_tokens_clean "Hi, there!" (by decide)⟩
